import Mathlib

/-!
Formal model of the `darksky` Go package (larrymyers/darksky), a client
library for the Dark Sky weather HTTP API.

The embedding is shallow:

* Go `float64` fields are modelled as exact rationals (`ℚ`).  Every finite
  IEEE-754 double is an exact rational, and the only operations the code
  performs on them are order comparisons against integer literals, which the
  embedding preserves exactly.  (`NaN` makes every comparison false; it has no
  rational counterpart, but neither the code nor the spec distinguishes it.)
* Go `int64`/`int` are modelled as `Int`.  No arithmetic is performed on them
  other than decimal formatting and parsing, so overflow is not reachable.
* Go `string` is `String`.
* `error` results are `Option String` (the error message) or `Except String`.
* The HTTP transport and the JSON codec are external collaborators: `Get` is
  modelled as a function of an abstract fetch outcome and an abstract decoder.
-/

namespace DarkSky

/-- Go `DataPoint` — the current weather data for a single point in time
(src/darksky.go, `type DataPoint struct`).  Every field defaults to the Go
zero value of its type. -/
structure DataPoint where
  Time : Int := 0
  Summary : String := ""
  Icon : String := ""
  SunriseTime : Int := 0
  SunsetTime : Int := 0
  PrecipIntensity : ℚ := 0
  PrecipIntensityMax : ℚ := 0
  PrecipIntensityMaxTime : Int := 0
  PrecipProbability : ℚ := 0
  PrecipType : String := ""
  PrecipAccumulation : ℚ := 0
  Temperature : ℚ := 0
  TemperatureMin : ℚ := 0
  TemperatureMinTime : Int := 0
  TemperatureMax : ℚ := 0
  TemperatureMaxTime : Int := 0
  ApparentTemperature : ℚ := 0
  DewPoint : ℚ := 0
  WindSpeed : ℚ := 0
  WindBearing : ℚ := 0
  CloudCover : ℚ := 0
  Humidity : ℚ := 0
  Pressure : ℚ := 0
  Visibility : ℚ := 0
  Ozone : ℚ := 0
  MoonPhase : ℚ := 0

/-- Go `DataBlock` — a collection of data points over a period of time. -/
structure DataBlock where
  Summary : String := ""
  Icon : String := ""
  Data : List DataPoint := []

/-- Go `Alert` — a potentially serious weather condition. -/
structure Alert where
  Title : String := ""
  Description : String := ""
  Expires : Int := 0
  URI : String := ""

/-- Go `Flags` — metadata about the forecast. -/
structure Flags where
  DarkSkyUnavailable : String := ""
  DarkSkyStations : List String := []
  DataPointStations : List String := []
  ISDStations : List String := []
  LAMPStations : List String := []
  METARStations : List String := []
  METNOLicense : String := ""
  Sources : List String := []
  Units : String := ""

/-- Go `Forecast` — the top-level representation of the weather forecast for a
location.  `{}` is the Go zero value of the type. -/
structure Forecast where
  Latitude : ℚ := 0
  Longitude : ℚ := 0
  Timezone : String := ""
  Offset : Int := 0
  Currently : DataPoint := {}
  Minutely : DataBlock := {}
  Hourly : DataBlock := {}
  Daily : DataBlock := {}
  Alerts : List Alert := []
  Flags : Flags := {}

/-- Go: `func (dp DataPoint) WindDirection() string` (src/darksky.go:69-89).
Builds the direction label by appending, in order, "N", "S", "E", "W" under
four independent strict-inequality tests on `WindBearing`. -/
def DataPoint.WindDirection (dp : DataPoint) : String :=
  let direction := ""
  let direction := if dp.WindBearing > 293 ∨ dp.WindBearing < 67 then direction ++ "N" else direction
  let direction := if dp.WindBearing < 247 ∧ dp.WindBearing > 113 then direction ++ "S" else direction
  let direction := if dp.WindBearing > 22 ∧ dp.WindBearing < 157 then direction ++ "E" else direction
  let direction := if dp.WindBearing < 337 ∧ dp.WindBearing > 203 then direction ++ "W" else direction
  direction

/-- The spec's wording of the wind-direction computation, for comparison with
`DataPoint.WindDirection`: the concatenation, in the fixed order N, S, E, W,
of the four independently tested letters. -/
def windDirectionSpec (b : ℚ) : String :=
  (if b > 293 ∨ b < 67 then "N" else "") ++
  (if b < 247 ∧ b > 113 then "S" else "") ++
  (if b > 22 ∧ b < 157 then "E" else "") ++
  (if b < 337 ∧ b > 203 then "W" else "")

/-- A data point whose only non-zero field is the wind bearing (as built by
the repository's own `TestWindDirection`). -/
def bearingPoint (b : ℚ) : DataPoint := { WindBearing := b }

end DarkSky

namespace DarkSky

/-- UTF-8 encoding of a character as bytes (each < 256).  Go strings are byte
strings; percent-escaping in net/url operates on the UTF-8 bytes. -/
def utf8Bytes (c : Char) : List Nat :=
  let n := c.toNat
  if n < 0x80 then [n]
  else if n < 0x800 then [0xC0 + n / 0x40, 0x80 + n % 0x40]
  else if n < 0x10000 then
    [0xE0 + n / 0x1000, 0x80 + (n / 0x40) % 0x40, 0x80 + n % 0x40]
  else
    [0xF0 + n / 0x40000, 0x80 + (n / 0x1000) % 0x40, 0x80 + (n / 0x40) % 0x40,
      0x80 + n % 0x40]

/-- Upper-case hexadecimal digit, as used by net/url's escaping. -/
def hexUpper (n : Nat) : Char :=
  if n < 10 then Char.ofNat (48 + n) else Char.ofNat (55 + n)

/-- Percent-encoding `%XX` of one byte. -/
def percentEncodeByte (b : Nat) : List Char :=
  ['%', hexUpper (b / 16), hexUpper (b % 16)]

/-- One character of Go `url.QueryEscape`: alphanumerics and `-_.~` are kept,
space becomes `+`, everything else is percent-encoded byte-wise
(net/url `shouldEscape`, mode `encodeQueryComponent`). -/
def queryEscapeChar (c : Char) : List Char :=
  if c.isAlphanum || c = '-' || c = '_' || c = '.' || c = '~' then [c]
  else if c = ' ' then ['+']
  else (utf8Bytes c).flatMap percentEncodeByte

/-- Go `url.QueryEscape`. -/
def queryEscape (s : String) : String :=
  String.mk (s.data.flatMap queryEscapeChar)

/-- Characters Go leaves unescaped in a URL path (net/url `shouldEscape`,
mode `encodePath`): alphanumerics, `-_.~`, and the reserved characters other
than `?`. -/
def pathUnescaped (c : Char) : Bool :=
  c.isAlphanum || c ∈ ['-', '_', '.', '~', '$', '&', '+', ',', '/', ':', ';', '=', '@']

/-- One character of Go path escaping. -/
def pathEscapeChar (c : Char) : List Char :=
  if pathUnescaped c then [c] else (utf8Bytes c).flatMap percentEncodeByte

/-- Go `URL.EscapedPath` for URLs built by this library (no `RawPath`). -/
def pathEscape (s : String) : String :=
  String.mk (s.data.flatMap pathEscapeChar)

/-- Go net/url `Values`, modelled as an association list from key to the list
of values for that key, in insertion order of keys. -/
def valuesAdd (v : List (String × List String)) (key val : String) :
    List (String × List String) :=
  match v with
  | [] => [(key, [val])]
  | (k, vs) :: rest =>
    if k = key then (k, vs ++ [val]) :: rest else (k, vs) :: valuesAdd rest key val

/-- Values stored under a key (empty when absent). -/
def valuesGet (v : List (String × List String)) (key : String) : List String :=
  match v with
  | [] => []
  | (k, vs) :: rest => if k = key then vs else valuesGet rest key

/-- Lexicographic order on character lists (Go `sort.Strings` compares
byte-wise; for the ASCII keys this library uses, code-point order and byte
order agree). -/
def charListLe : List Char → List Char → Bool
  | [], _ => true
  | _ :: _, [] => false
  | a :: as, b :: bs => if a = b then charListLe as bs else decide (a.toNat < b.toNat)

/-- Lexicographic order on strings. -/
def strLe (a b : String) : Bool :=
  charListLe a.data b.data

/-- Insert into a sorted list of strings. -/
def insertSorted (k : String) : List String → List String
  | [] => [k]
  | x :: xs => if strLe k x then k :: x :: xs else x :: insertSorted k xs

/-- Sort strings ascending (Go `Values.Encode` sorts keys via sort.Strings). -/
def sortStrings (l : List String) : List String :=
  l.foldr insertSorted []

/-- Join with `&` separators, as `Values.Encode` does between pairs. -/
def joinAmp : List String → String
  | [] => ""
  | [x] => x
  | x :: xs => x ++ "&" ++ joinAmp xs

/-- Go `Values.Encode`: keys sorted ascending, every (key, value) pair
rendered as `QueryEscape(key)=QueryEscape(value)`, joined by `&`.  Values of
one key keep their insertion order. -/
def valuesEncode (v : List (String × List String)) : String :=
  joinAmp ((sortStrings (v.map Prod.fst)).flatMap fun k =>
    (valuesGet v k).map fun x => queryEscape k ++ "=" ++ queryEscape x)

/-- The components of a parsed absolute URL that this library uses. -/
structure URL where
  scheme : String
  host : String
  path : String
  rawQuery : String
  deriving DecidableEq

/-- Model of Go `url.Parse` restricted to absolute URLs of the shape the
library documents for `WithBaseURL` (`scheme://host:port/path`, optionally
with a query): scheme up to the first `:`, which must be followed by `//`,
then host up to the first `/` or `?`, then path up to `?`, then the raw
query.  An empty scheme or a missing `://` is rejected, as `url.Parse`
rejects a missing protocol scheme.  Fragments, user info and percent-escapes
in the authority are outside the modelled subset. -/
def parseURL (s : String) : Option URL :=
  let cs := s.data
  let scheme := cs.takeWhile (fun c => c ≠ ':')
  let rest := cs.dropWhile (fun c => c ≠ ':')
  if scheme.isEmpty then none
  else
    match rest with
    | ':' :: '/' :: '/' :: rest2 =>
      let host := rest2.takeWhile (fun c => c ≠ '/' ∧ c ≠ '?')
      let rest3 := rest2.dropWhile (fun c => c ≠ '/' ∧ c ≠ '?')
      let path := rest3.takeWhile (fun c => c ≠ '?')
      let rest4 := rest3.dropWhile (fun c => c ≠ '?')
      let rawQuery := match rest4 with
        | '?' :: q => q
        | other => other
      some ⟨String.mk scheme, String.mk host, String.mk path, String.mk rawQuery⟩
    | _ => none

/-- Split a character list at every occurrence of `sep`. -/
def splitChar (sep : Char) : List Char → List Char → List (List Char)
  | [], acc => [acc.reverse]
  | c :: rest, acc =>
    if c = sep then acc.reverse :: splitChar sep rest []
    else splitChar sep rest (c :: acc)

/-- Model of Go `url.ParseQuery` restricted to what the library exercises
(the default base URL carries no query): split on `&`, drop empty segments,
split each segment at its first `=` (a missing `=` yields an empty value).
Percent-unescaping and `;` separators are outside the modelled subset. -/
def parseQuery (s : String) : List (String × List String) :=
  if s.data.isEmpty then []
  else
    (splitChar '&' s.data []).foldl
      (fun acc piece =>
        if piece.isEmpty then acc
        else
          let k := piece.takeWhile (fun c => c ≠ '=')
          let r := piece.dropWhile (fun c => c ≠ '=')
          let val := match r with
            | '=' :: v => v
            | other => other
          valuesAdd acc (String.mk k) (String.mk val))
      []

/-- Model of Go `URL.String` for the URLs this library produces: scheme,
`://`, host, the escaped path, and `?` plus the raw query when the raw query
is non-empty. -/
def urlToString (u : URL) : String :=
  u.scheme ++ "://" ++ u.host ++ pathEscape u.path ++
    (if u.rawQuery = "" then "" else "?" ++ u.rawQuery)

end DarkSky

namespace DarkSky

/-- The `Units` constant `US` ("us"). -/
def US : String := "us"

/-- The `Units` constant `SI` ("si"). -/
def SI : String := "si"

/-- The `Lang` constant `English` ("en"). -/
def English : String := "en"

/-- The `Lang` constant `Spanish` ("es"). -/
def Spanish : String := "es"

/-- The default base URL installed by `MakeRequest`. -/
def defaultBaseURL : String := "https://api.darksky.net/forecast"

/-- Go `ForecastRequest` (src/darksky.go).  Go stores `Lat`/`Lng` as `float64`
and renders them into the path with `%v`; floating-point formatting is not
modelled, so these fields hold the already-rendered decimal strings (for the
test fixture, "41.1234" and "-81.1234").  `Lang` and `Units` are Go string
types. -/
structure ForecastRequest where
  Key : String
  Lat : String
  Lng : String
  Time : Int
  Lang : String
  Units : String
  ExtendHourly : Bool
  Exclude : List String
  baseURL : String
  deriving DecidableEq

/-- Go `MakeRequest` (src/darksky.go:146-158): defaults for the optional
fields, with `Time = -1` as the unset sentinel. -/
def MakeRequest (key lat lng : String) : ForecastRequest :=
  { Key := key, Lat := lat, Lng := lng, Time := -1, Lang := English,
    Units := US, ExtendHourly := false, Exclude := [], baseURL := defaultBaseURL }

/-- Go `WithBaseURL`: set the base URL (mutation modelled functionally). -/
def ForecastRequest.WithBaseURL (f : ForecastRequest) (b : String) : ForecastRequest :=
  { f with baseURL := b }

/-- Go `WithTime`: set the forecast time (seconds since the Unix epoch). -/
def ForecastRequest.WithTime (f : ForecastRequest) (t : Int) : ForecastRequest :=
  { f with Time := t }

/-- Go `WithLang`: set the summary language. -/
def ForecastRequest.WithLang (f : ForecastRequest) (l : String) : ForecastRequest :=
  { f with Lang := l }

/-- Go `WithUnits`: set the measurement units. -/
def ForecastRequest.WithUnits (f : ForecastRequest) (u : String) : ForecastRequest :=
  { f with Units := u }

/-- Go `func (f *ForecastRequest) URL() (string, error)`
(src/darksky.go:210-230): parse the base URL, add `lang` and `units` to its
query values, extend the path with `/{key}/{lat},{lng}`, append `,{time}`
exactly when `Time > 0`, then render.  `strconv.FormatInt(·, 10)` is decimal
formatting, i.e. `toString` on `Int`. -/
def ForecastRequest.URL (f : ForecastRequest) : Except String String :=
  match parseURL f.baseURL with
  | none => Except.error "invalid base URL"
  | some u =>
    let v := parseQuery u.rawQuery
    let v := valuesAdd v "lang" f.Lang
    let v := valuesAdd v "units" f.Units
    let path := u.path ++ "/" ++ f.Key ++ "/" ++ f.Lat ++ "," ++ f.Lng
    let path := if f.Time > 0 then path ++ "," ++ toString f.Time else path
    Except.ok (urlToString { u with path := path, rawQuery := valuesEncode v })

deriving instance DecidableEq for Except

/-- Number of commas in a string (used to count path segments). -/
def commaCount (s : String) : Nat :=
  s.data.count ','

end DarkSky


namespace DarkSky

/-- Go `APICallsHeader` (src/darksky.go:298). -/
def APICallsHeader : String := "X-Forecast-API-Calls"

/-- Go `strconv.Atoi`: an optional sign followed by at least one decimal
digit, rejecting any other character and values outside the signed 64-bit
range (Go `int` on 64-bit platforms). -/
def atoi (s : String) : Option Int :=
  let signSplit : Bool × List Char :=
    match s.data with
    | '-' :: rest => (true, rest)
    | '+' :: rest => (false, rest)
    | other => (false, other)
  let ds := signSplit.2
  if ds.isEmpty then none
  else if ds.all Char.isDigit then
    let n : Nat := ds.foldl (fun acc c => acc * 10 + (c.toNat - 48)) 0
    let v : Int := if signSplit.1 then -(n : Int) else (n : Int)
    if v < -(2 ^ 63) ∨ 2 ^ 63 - 1 < v then none else some v
  else none

/-- Go `http.Header.Get`: the first value stored under the (canonical) header
name, or "" when the header is absent.  `APICallsHeader` is already in
canonical MIME form, so canonicalization is the identity here. -/
def headerGet (h : List (String × String)) (key : String) : String :=
  match h with
  | [] => ""
  | (k, v) :: rest => if k = key then v else headerGet rest key

/-- The outcome of the HTTP GET plus body read — the transport is an external
collaborator of the library. -/
inductive FetchOutcome where
  | transportError (msg : String)
  | readError (msg : String)
  | response (status : Nat) (headers : List (String × String)) (body : String)

/-- Go `ForecastResponse` (src/darksky.go): zero value has a zero forecast, a
zero call count and no error. -/
structure ForecastResponse where
  Forecast : Forecast := {}
  APICallCount : Int := 0
  Error : Option String := none

/-- The tail of Go `Get` (src/darksky.go:186-206), once an HTTP response with
a status, headers and body has been read: on status ≥ 400 the error is the
raw body; otherwise the call-count header is parsed (parse failure silently
ignored) and the body decoded (`decode` stands for the external JSON codec
`fromJSON`). -/
def getFromResponse (status : Nat) (headers : List (String × String)) (body : String)
    (decode : String → Except String Forecast) : ForecastResponse :=
  let fr : ForecastResponse := {}
  if status ≥ 400 then { fr with Error := some body }
  else
    let fr := match atoi (headerGet headers APICallsHeader) with
      | some n => { fr with APICallCount := n }
      | none => fr
    match decode body with
    | Except.error e => { fr with Error := some e }
    | Except.ok fc => { fr with Forecast := fc }

/-- Go `func (f *ForecastRequest) Get() ForecastResponse`
(src/darksky.go:161-207): render the URL, fetch, and classify.  Every failure
is returned inside the `ForecastResponse`. -/
def ForecastRequest.Get (f : ForecastRequest) (fetch : String → FetchOutcome)
    (decode : String → Except String Forecast) : ForecastResponse :=
  match f.URL with
  | Except.error e => { Error := some e }
  | Except.ok reqURL =>
    match fetch reqURL with
    | FetchOutcome.transportError e => { Error := some e }
    | FetchOutcome.readError e => { Error := some e }
    | FetchOutcome.response status headers body =>
      getFromResponse status headers body decode

end DarkSky

namespace DarkSky

/-- The source computation agrees with the spec-shaped concatenation: the
let-chain of appends in `WindDirection` is the N,S,E,W concatenation. -/
theorem windDirection_eq_spec (dp : DataPoint) :
    dp.WindDirection = windDirectionSpec dp.WindBearing := by
  simp only [DataPoint.WindDirection, windDirectionSpec]
  split_ifs <;> rfl

/-- The N-test and the S-test are mutually exclusive. -/
theorem n_s_exclusive (b : ℚ) :
    ¬((b > 293 ∨ b < 67) ∧ (b < 247 ∧ b > 113)) := by
  rintro ⟨hN | hN, hS1, hS2⟩
  all_goals linarith

/-- The E-test and the W-test are mutually exclusive. -/
theorem e_w_exclusive (b : ℚ) :
    ¬((b > 22 ∧ b < 157) ∧ (b < 337 ∧ b > 203)) := by
  rintro ⟨⟨h1, h2⟩, h3, h4⟩
  linarith

/-- At least one of the four direction tests fires, for every rational
bearing. -/
theorem tests_cover (b : ℚ) :
    (b > 293 ∨ b < 67) ∨ (b < 247 ∧ b > 113) ∨ (b > 22 ∧ b < 157) ∨
      (b < 337 ∧ b > 203) := by
  by_contra hc
  push_neg at hc
  obtain ⟨⟨hn1, hn2⟩, hs, he, hw⟩ := hc
  have h157 : (157 : ℚ) ≤ b := he (by linarith)
  have h247 : (247 : ℚ) ≤ b := by
    by_contra hcon
    push_neg at hcon
    have := hs hcon
    linarith
  have := hw (by linarith)
  linarith

/-- For every rational bearing the spec-shaped computation yields one of the
eight compass labels. -/
theorem windDirectionSpec_labels (b : ℚ) :
    windDirectionSpec b ≠ "" ∧
    windDirectionSpec b ∈ (["N", "NE", "E", "SE", "S", "SW", "W", "NW"] : List String) := by
  by_cases hN : b > 293 ∨ b < 67 <;>
  by_cases hS : b < 247 ∧ b > 113 <;>
  by_cases hE : b > 22 ∧ b < 157 <;>
  by_cases hW : b < 337 ∧ b > 203 <;>
  simp only [windDirectionSpec, hN, hS, hE, hW, if_true, if_false] <;>
  first
    | decide
    | exact absurd (And.intro hN hS) (n_s_exclusive b)
    | exact absurd (And.intro hE hW) (e_w_exclusive b)
    | (rcases tests_cover b with h | h | h | h
       exacts [absurd h hN, absurd h hS, absurd h hE, absurd h hW])

end DarkSky

namespace DarkSky

/-- C1: for every `DataPoint`, `WindDirection` returns exactly the string
formed by concatenating, in the fixed order N then S then E then W, the
letters of the four independently evaluated strict-inequality tests; in
particular the wind direction at bearing 147 is "SE", at 0 is "N", at 336 is
"NW", and a bearing exactly equal to one of the eight thresholds does not
trigger the test that has it as a boundary (shown by evaluating each
threshold bearing). -/
theorem windDirection_matches_spec :
    (∀ dp : DataPoint, dp.WindDirection = windDirectionSpec dp.WindBearing) ∧
    (bearingPoint 147).WindDirection = "SE" ∧
    (bearingPoint 0).WindDirection = "N" ∧
    (bearingPoint 336).WindDirection = "NW" ∧
    (bearingPoint 22).WindDirection = "N" ∧
    (bearingPoint 67).WindDirection = "E" ∧
    (bearingPoint 113).WindDirection = "E" ∧
    (bearingPoint 157).WindDirection = "S" ∧
    (bearingPoint 203).WindDirection = "S" ∧
    (bearingPoint 247).WindDirection = "W" ∧
    (bearingPoint 293).WindDirection = "W" ∧
    (bearingPoint 337).WindDirection = "N" := by
  refine ⟨windDirection_eq_spec, ?_, ?_, ?_, ?_, ?_, ?_, ?_, ?_, ?_, ?_, ?_⟩
  all_goals decide

/-- C9: for every `DataPoint` whose wind bearing lies in the closed interval
[0, 360], `WindDirection` is a non-empty string and is one of the eight
compass labels "N", "NE", "E", "SE", "S", "SW", "W", "NW". -/
theorem windDirection_eight_labels (dp : DataPoint)
    (h0 : 0 ≤ dp.WindBearing) (h1 : dp.WindBearing ≤ 360) :
    dp.WindDirection ≠ "" ∧
    dp.WindDirection ∈ (["N", "NE", "E", "SE", "S", "SW", "W", "NW"] : List String) := by
  rw [windDirection_eq_spec]
  exact windDirectionSpec_labels dp.WindBearing

/-- Witness for C9 at the canonical fixture bearing 147. -/
theorem windDirection_eight_labels_witness :
    (0 : ℚ) ≤ (bearingPoint 147).WindBearing ∧ (bearingPoint 147).WindBearing ≤ 360 ∧
    ((bearingPoint 147).WindDirection ≠ "" ∧
      (bearingPoint 147).WindDirection ∈
        (["N", "NE", "E", "SE", "S", "SW", "W", "NW"] : List String)) :=
  ⟨by decide, by decide,
    windDirection_eight_labels (bearingPoint 147) (by decide) (by decide)⟩

end DarkSky

namespace DarkSky

/-- Escaping a list of path-safe characters is the identity. -/
theorem flatMap_pathEscapeChar_of_safe (l : List Char)
    (h : ∀ c ∈ l, pathUnescaped c = true) :
    l.flatMap pathEscapeChar = l := by
  induction l with
  | nil => rfl
  | cons c cs ih =>
    have hc : pathUnescaped c = true := h c (List.mem_cons_self c cs)
    have ihh := ih fun x hx => h x (List.mem_cons_of_mem c hx)
    simp [pathEscapeChar, hc, ihh]

/-- Path escaping distributes over concatenation. -/
theorem pathEscape_append (a b : String) :
    pathEscape (a ++ b) = pathEscape a ++ pathEscape b := by
  apply String.ext
  simp [pathEscape, String.data_append]

/-- Path escaping is the identity on strings made of path-safe characters. -/
theorem pathEscape_of_safe (s : String) (h : ∀ c ∈ s.data, pathUnescaped c = true) :
    pathEscape s = s :=
  String.ext (flatMap_pathEscapeChar_of_safe s.data h)

/-- Applying `Nat.digitChar` to a value below ten is a decimal digit character. -/
theorem digitChar_isDigit : ∀ m : Nat, m < 10 → (Nat.digitChar m).isDigit = true := by
  decide

/-- Every character `Nat.toDigitsCore` emits in base 10 is a decimal digit,
provided the accumulator holds only digits. -/
theorem toDigitsCore_digits :
    ∀ (fuel n : Nat) (ds : List Char), (∀ c ∈ ds, c.isDigit = true) →
      ∀ c ∈ Nat.toDigitsCore 10 fuel n ds, c.isDigit = true := by
  intro fuel
  induction fuel with
  | zero =>
    intro n ds h
    simpa [Nat.toDigitsCore] using h
  | succ fuel ih =>
    intro n ds h
    have hd : (Nat.digitChar (n % 10)).isDigit = true :=
      digitChar_isDigit _ (Nat.mod_lt _ (by norm_num))
    have hds : ∀ c ∈ Nat.digitChar (n % 10) :: ds, c.isDigit = true := by
      intro c hc
      rcases List.mem_cons.mp hc with rfl | hc
      · exact hd
      · exact h c hc
    by_cases hz : n / 10 = 0
    · simpa [Nat.toDigitsCore, hz] using hds
    · simpa [Nat.toDigitsCore, hz] using ih (n / 10) _ hds

/-- Every character of `Nat.repr` is a decimal digit. -/
theorem nat_repr_digits (n : Nat) : ∀ c ∈ (Nat.repr n).data, c.isDigit = true := by
  intro c hc
  exact toDigitsCore_digits (n + 1) n [] (by intro c hc; cases hc) c hc

/-- Every character of `toString` of a positive integer is a decimal digit
(`strconv.FormatInt(t, 10)` for positive `t`). -/
theorem int_pos_toString_digits (t : Int) (h : 0 < t) :
    ∀ c ∈ (toString t).data, c.isDigit = true := by
  cases t with
  | ofNat n => exact nat_repr_digits n
  | negSucc n => exact absurd h (by simp [Int.negSucc_eq]; omega)

/-- Decimal digits are path-safe. -/
theorem isDigit_pathUnescaped (c : Char) (h : c.isDigit = true) :
    pathUnescaped c = true := by
  simp [pathUnescaped, Char.isAlphanum, h]

/-- Decimal digits are not commas. -/
theorem isDigit_ne_comma (c : Char) (h : c.isDigit = true) : c ≠ ',' := by
  intro hc
  subst hc
  simp [Char.isDigit] at h

end DarkSky

namespace DarkSky

theorem safe_append {a b : String} (ha : ∀ c ∈ a.data, pathUnescaped c = true)
    (hb : ∀ c ∈ b.data, pathUnescaped c = true) :
    ∀ c ∈ (a ++ b).data, pathUnescaped c = true := by
  intro c hc
  rw [String.data_append] at hc
  rcases List.mem_append.mp hc with h | h
  exacts [ha c h, hb c h]

theorem encode_lang_units (l u : String) :
    valuesEncode [("lang", [l]), ("units", [u])] =
      "lang=" ++ queryEscape l ++ "&units=" ++ queryEscape u := by
  have h : valuesEncode [("lang", [l]), ("units", [u])] =
      queryEscape "lang" ++ "=" ++ queryEscape l ++ "&" ++
        (queryEscape "units" ++ "=" ++ queryEscape u) := rfl
  have hl : queryEscape "lang" = "lang" := rfl
  have hu : queryEscape "units" = "units" := rfl
  rw [h, hl, hu]
  apply String.ext
  simp [String.data_append]

theorem query_ne_empty (l u : String) :
    "lang=" ++ queryEscape l ++ "&units=" ++ queryEscape u ≠ "" := by
  intro hx
  have := congrArg String.data hx
  simp [String.data_append] at this

theorem URL_default_shape (f : ForecastRequest) (hb : f.baseURL = defaultBaseURL)
    (hk : ∀ c ∈ f.Key.data, pathUnescaped c = true)
    (hlat : ∀ c ∈ f.Lat.data, pathUnescaped c = true)
    (hlng : ∀ c ∈ f.Lng.data, pathUnescaped c = true) :
    f.URL = Except.ok (defaultBaseURL ++ "/" ++ f.Key ++ "/" ++ f.Lat ++ "," ++ f.Lng ++
      (if 0 < f.Time then "," ++ toString f.Time else "") ++
      "?lang=" ++ queryEscape f.Lang ++ "&units=" ++ queryEscape f.Units) := by
  have hp : parseURL defaultBaseURL = some ⟨"https", "api.darksky.net", "/forecast", ""⟩ := rfl
  have hq : parseQuery "" = [] := rfl
  have hv : valuesAdd (valuesAdd ([] : List (String × List String)) "lang" f.Lang)
      "units" f.Units = [("lang", [f.Lang]), ("units", [f.Units])] := rfl
  have hne := query_ne_empty f.Lang f.Units
  have hpk := pathEscape_of_safe f.Key hk
  have hplat := pathEscape_of_safe f.Lat hlat
  have hplng := pathEscape_of_safe f.Lng hlng
  have hpf : pathEscape "/forecast" = "/forecast" := rfl
  have hps : pathEscape "/" = "/" := rfl
  have hpc : pathEscape "," = "," := rfl
  by_cases htp : 0 < f.Time
  · have hpt := pathEscape_of_safe (toString f.Time) fun c hc =>
      isDigit_pathUnescaped c (int_pos_toString_digits f.Time htp c hc)
    simp only [ForecastRequest.URL, hb, hp, hq, hv, encode_lang_units, urlToString,
      gt_iff_lt, htp, if_true, if_pos, if_neg hne,
      pathEscape_append, hpk, hplat, hplng, hpf, hps, hpc, hpt]
    apply congrArg Except.ok
    apply String.ext
    simp [String.data_append, defaultBaseURL]
  · simp only [ForecastRequest.URL, hb, hp, hq, hv, encode_lang_units, urlToString,
      gt_iff_lt, htp, if_false, if_neg, if_neg hne,
      pathEscape_append, hpk, hplat, hplng, hpf, hps, hpc]
    apply congrArg Except.ok
    apply String.ext
    simp [String.data_append, defaultBaseURL]

end DarkSky

namespace DarkSky

theorem commaCount_append (a b : String) :
    commaCount (a ++ b) = commaCount a + commaCount b := by
  simp [commaCount, String.data_append, List.count_append]

/-- C2: for every request on the default base URL whose `Time` is the unset
sentinel -1 (as produced by `MakeRequest`), `URL()` succeeds and renders
`{baseURL}/{key}/{lat},{lng}` — the part after the key holding exactly one
comma, hence exactly two comma-separated segments — followed by a query
string with `lang` before `units`.  The path-safety hypotheses state that the
key and the rendered coordinates consist of characters Go embeds unescaped in
a path, and that the rendered coordinates are comma-free; both hold for every
`%v`-rendered float64 and for real API keys. -/
theorem url_time_unset (f : ForecastRequest) (hb : f.baseURL = defaultBaseURL)
    (ht : f.Time = -1)
    (hk : ∀ c ∈ f.Key.data, pathUnescaped c = true)
    (hlat : ∀ c ∈ f.Lat.data, pathUnescaped c = true)
    (hlng : ∀ c ∈ f.Lng.data, pathUnescaped c = true)
    (hlc : ',' ∉ f.Lat.data) (hgc : ',' ∉ f.Lng.data) :
    f.URL = Except.ok (defaultBaseURL ++ "/" ++ f.Key ++ "/" ++ f.Lat ++ "," ++ f.Lng ++
      "?lang=" ++ queryEscape f.Lang ++ "&units=" ++ queryEscape f.Units) ∧
    commaCount (f.Lat ++ "," ++ f.Lng) = 1 := by
  constructor
  · have h := URL_default_shape f hb hk hlat hlng
    rw [ht] at h
    simp only [show ¬((0:Int) < -1) by norm_num, if_false, ite_false, if_neg,
      not_false_iff, String.append_empty] at h
    exact h
  · rw [commaCount_append, commaCount_append]
    have h1 : commaCount f.Lat = 0 := List.count_eq_zero.mpr hlc
    have h2 : commaCount f.Lng = 0 := List.count_eq_zero.mpr hgc
    have h3 : commaCount "," = 1 := rfl
    omega

/-- C3: for every request on the default base URL whose `Time` is a positive
integer, `URL()` renders the same path as the time-unset case with exactly
one additional comma-separated segment, the decimal representation of the
time (a comma-free digit string, so the appended part contains exactly one
comma). -/
theorem url_time_set (f : ForecastRequest) (hb : f.baseURL = defaultBaseURL)
    (ht : 0 < f.Time)
    (hk : ∀ c ∈ f.Key.data, pathUnescaped c = true)
    (hlat : ∀ c ∈ f.Lat.data, pathUnescaped c = true)
    (hlng : ∀ c ∈ f.Lng.data, pathUnescaped c = true) :
    f.URL = Except.ok (defaultBaseURL ++ "/" ++ f.Key ++ "/" ++ f.Lat ++ "," ++ f.Lng ++
      ("," ++ toString f.Time) ++
      "?lang=" ++ queryEscape f.Lang ++ "&units=" ++ queryEscape f.Units) ∧
    commaCount ("," ++ toString f.Time) = 1 := by
  constructor
  · have h := URL_default_shape f hb hk hlat hlng
    rw [if_pos ht] at h
    exact h
  · rw [commaCount_append]
    have h0 : commaCount (toString f.Time) = 0 :=
      List.count_eq_zero.mpr fun hmem =>
        isDigit_ne_comma ',' (int_pos_toString_digits f.Time ht ',' hmem) rfl
    have h3 : commaCount "," = 1 := rfl
    omega

/-- C4 counterexample: after `WithTime 0` the `Time` field differs from the
sentinel -1, yet `URL()` renders no time segment — the code tests `Time > 0`,
not `Time ≠ -1`, so the claim "the time segment is present iff time is not
the sentinel" fails at `Time = 0`. -/
theorem url_withTime_zero_cex :
    ((MakeRequest "key" "1" "2").WithTime 0).Time ≠ -1 ∧
    ((MakeRequest "key" "1" "2").WithTime 0).URL =
      Except.ok "https://api.darksky.net/forecast/key/1,2?lang=en&units=us" ∧
    ((MakeRequest "key" "1" "2").WithTime 0).URL ≠
      Except.ok "https://api.darksky.net/forecast/key/1,2,0?lang=en&units=us" := by
  refine ⟨by decide, by decide, by decide⟩

/-- C4 (amended): for every request on the default base URL, `URL()` appends
the `,{time}` segment exactly when `Time > 0`; `Time = 0` and negative times
(the sentinel -1 included) are rendered without a time segment. -/
theorem url_time_segment_iff (f : ForecastRequest) (hb : f.baseURL = defaultBaseURL)
    (hk : ∀ c ∈ f.Key.data, pathUnescaped c = true)
    (hlat : ∀ c ∈ f.Lat.data, pathUnescaped c = true)
    (hlng : ∀ c ∈ f.Lng.data, pathUnescaped c = true) :
    f.URL = Except.ok (defaultBaseURL ++ "/" ++ f.Key ++ "/" ++ f.Lat ++ "," ++ f.Lng ++
      (if 0 < f.Time then "," ++ toString f.Time else "") ++
      "?lang=" ++ queryEscape f.Lang ++ "&units=" ++ queryEscape f.Units) :=
  URL_default_shape f hb hk hlat hlng

/-- C8: setting the language twice (and the units twice) leaves a request
identical to one set once with the later value, and rendering yields a query
string in which `lang` carries exactly the later language and `units` exactly
the later units, each appearing once — no accumulation of earlier values. -/
theorem lang_units_override (f : ForecastRequest) (l1 l2 u1 u2 : String)
    (hb : f.baseURL = defaultBaseURL)
    (hk : ∀ c ∈ f.Key.data, pathUnescaped c = true)
    (hlat : ∀ c ∈ f.Lat.data, pathUnescaped c = true)
    (hlng : ∀ c ∈ f.Lng.data, pathUnescaped c = true) :
    (f.WithLang l1).WithLang l2 = f.WithLang l2 ∧
    (f.WithUnits u1).WithUnits u2 = f.WithUnits u2 ∧
    ((((f.WithLang l1).WithLang l2).WithUnits u1).WithUnits u2).URL =
      Except.ok (defaultBaseURL ++ "/" ++ f.Key ++ "/" ++ f.Lat ++ "," ++ f.Lng ++
        (if 0 < f.Time then "," ++ toString f.Time else "") ++
        "?lang=" ++ queryEscape l2 ++ "&units=" ++ queryEscape u2) := by
  refine ⟨rfl, rfl, ?_⟩
  exact URL_default_shape _ hb hk hlat hlng

theorem url_time_unset_witness :
    (MakeRequest "foo" "41.1234" "-81.1234").Time = -1 ∧
    ((MakeRequest "foo" "41.1234" "-81.1234").URL =
        Except.ok (defaultBaseURL ++ "/" ++ "foo" ++ "/" ++ "41.1234" ++ "," ++ "-81.1234" ++
          "?lang=" ++ queryEscape English ++ "&units=" ++ queryEscape US) ∧
      commaCount ("41.1234" ++ "," ++ "-81.1234") = 1) :=
  ⟨rfl, url_time_unset (MakeRequest "foo" "41.1234" "-81.1234") rfl rfl
    (by decide) (by decide) (by decide) (by decide) (by decide)⟩

end DarkSky

namespace DarkSky

/-- C5: every failing `Get` carries a zero-value forecast. -/
theorem get_error_zero_forecast (f : ForecastRequest) (fetch : String → FetchOutcome)
    (decode : String → Except String Forecast)
    (h : (f.Get fetch decode).Error ≠ none) :
    (f.Get fetch decode).Forecast = {} := by
  revert h
  unfold ForecastRequest.Get
  split
  · simp
  · split
    · simp
    · simp
    · next status headers body hfeq =>
      unfold getFromResponse
      by_cases hs : status ≥ 400
      · simp [hs]
      · simp only [hs, if_false, ite_false, if_neg, not_false_iff]
        rcases h1 : atoi (headerGet headers APICallsHeader) with _ | n <;>
          rcases h2 : decode body with e | fc <;> simp [h1, h2]

theorem get_error_zero_forecast_witness :
    ((MakeRequest "foo" "41.1234" "-81.1234").Get
        (fun _ => FetchOutcome.transportError "no route to host")
        (fun _ => Except.error "bad json")).Error ≠ none ∧
    ((MakeRequest "foo" "41.1234" "-81.1234").Get
        (fun _ => FetchOutcome.transportError "no route to host")
        (fun _ => Except.error "bad json")).Forecast = {} := by
  have hu : (MakeRequest "foo" "41.1234" "-81.1234").URL =
      Except.ok "https://api.darksky.net/forecast/foo/41.1234,-81.1234?lang=en&units=us" := by
    decide
  have hne : ((MakeRequest "foo" "41.1234" "-81.1234").Get
      (fun _ => FetchOutcome.transportError "no route to host")
      (fun _ => Except.error "bad json")).Error ≠ none := by
    simp [ForecastRequest.Get, hu]
  exact ⟨hne, get_error_zero_forecast _ _ _ hne⟩

end DarkSky

namespace DarkSky

/-- Once the URL renders and the fetch yields an HTTP response, `Get` is the
response-classification stage. -/
theorem get_response_eq (f : ForecastRequest) (fetch : String → FetchOutcome)
    (decode : String → Except String Forecast) (u : String) (status : Nat)
    (headers : List (String × String)) (body : String)
    (hu : f.URL = Except.ok u) (hf : fetch u = FetchOutcome.response status headers body) :
    f.Get fetch decode = getFromResponse status headers body decode := by
  unfold ForecastRequest.Get
  rw [hu]
  simp [hf]

/-- C6: an HTTP status ≥ 400 yields the raw body as the error, a zero-value
forecast and a zero call count. -/
theorem get_http_error_body (f : ForecastRequest) (fetch : String → FetchOutcome)
    (decode : String → Except String Forecast) (u : String) (status : Nat)
    (headers : List (String × String)) (body : String)
    (hu : f.URL = Except.ok u) (hf : fetch u = FetchOutcome.response status headers body)
    (hs : 400 ≤ status) :
    f.Get fetch decode = { Forecast := {}, APICallCount := 0, Error := some body } := by
  rw [get_response_eq f fetch decode u status headers body hu hf]
  simp [getFromResponse, hs]

theorem get_http_error_body_witness :
    (400 ≤ 500) ∧
    ((MakeRequest "foo" "41.1234" "-81.1234").Get
        (fun _ => FetchOutcome.response 500 [] "A Server Error Occurred.")
        (fun _ => Except.error "unused")) =
      { Forecast := {}, APICallCount := 0, Error := some "A Server Error Occurred." } :=
  ⟨by norm_num,
    get_http_error_body (MakeRequest "foo" "41.1234" "-81.1234") _ _
      "https://api.darksky.net/forecast/foo/41.1234,-81.1234?lang=en&units=us" 500 []
      "A Server Error Occurred." (by decide) rfl (by norm_num)⟩

/-- C7: below status 400 the call count is the parsed header value when the
header parses, 0 when it does not, and a parse failure alone produces no
error. -/
theorem get_call_count (f : ForecastRequest) (fetch : String → FetchOutcome)
    (decode : String → Except String Forecast) (u : String) (status : Nat)
    (headers : List (String × String)) (body : String)
    (hu : f.URL = Except.ok u) (hf : fetch u = FetchOutcome.response status headers body)
    (hs : status < 400) :
    (∀ n, atoi (headerGet headers APICallsHeader) = some n →
      (f.Get fetch decode).APICallCount = n) ∧
    (atoi (headerGet headers APICallsHeader) = none →
      (f.Get fetch decode).APICallCount = 0) ∧
    (∀ fc, decode body = Except.ok fc → (f.Get fetch decode).Error = none) := by
  rw [get_response_eq f fetch decode u status headers body hu hf]
  have hs400 : ¬(status ≥ 400) := by omega
  refine ⟨?_, ?_, ?_⟩
  · intro n hn
    rcases hd : decode body with e | fc <;> simp [getFromResponse, hs400, hn, hd]
  · intro hn
    rcases hd : decode body with e | fc <;> simp [getFromResponse, hs400, hn, hd]
  · intro fc hd
    rcases hn : atoi (headerGet headers APICallsHeader) with _ | n <;>
      simp [getFromResponse, hs400, hn, hd]

theorem get_call_count_witness :
    atoi (headerGet [(APICallsHeader, "1")] APICallsHeader) = some 1 ∧
    ((MakeRequest "foo" "41.1234" "-81.1234").Get
        (fun _ => FetchOutcome.response 200 [(APICallsHeader, "1")] "json")
        (fun _ => Except.ok {})).APICallCount = 1 ∧
    ((MakeRequest "foo" "41.1234" "-81.1234").Get
        (fun _ => FetchOutcome.response 200 [(APICallsHeader, "1")] "json")
        (fun _ => Except.ok {})).Error = none := by
  have h := get_call_count (MakeRequest "foo" "41.1234" "-81.1234")
    (fun _ => FetchOutcome.response 200 [(APICallsHeader, "1")] "json")
    (fun _ => Except.ok {})
    "https://api.darksky.net/forecast/foo/41.1234,-81.1234?lang=en&units=us" 200
    [(APICallsHeader, "1")] "json" (by decide) rfl (by norm_num)
  exact ⟨by decide, h.1 1 (by decide), h.2.2 {} rfl⟩

/-- C10: a decode failure below status 400 yields an error response that
nonetheless carries the already-parsed call count. -/
theorem get_decode_error_keeps_count (f : ForecastRequest) (fetch : String → FetchOutcome)
    (decode : String → Except String Forecast) (u : String) (status : Nat)
    (headers : List (String × String)) (body : String) (n : Int) (e : String)
    (hu : f.URL = Except.ok u) (hf : fetch u = FetchOutcome.response status headers body)
    (hs : status < 400)
    (hn : atoi (headerGet headers APICallsHeader) = some n)
    (hd : decode body = Except.error e) :
    (f.Get fetch decode).Error = some e ∧ (f.Get fetch decode).APICallCount = n := by
  rw [get_response_eq f fetch decode u status headers body hu hf]
  have hs400 : ¬(status ≥ 400) := by omega
  constructor <;> simp [getFromResponse, hs400, hn, hd]

theorem get_decode_error_keeps_count_witness :
    ((MakeRequest "foo" "41.1234" "-81.1234").Get
        (fun _ => FetchOutcome.response 200 [(APICallsHeader, "1")] "not json")
        (fun _ => Except.error "invalid json")).Error = some "invalid json" ∧
    ((MakeRequest "foo" "41.1234" "-81.1234").Get
        (fun _ => FetchOutcome.response 200 [(APICallsHeader, "1")] "not json")
        (fun _ => Except.error "invalid json")).APICallCount = 1 :=
  get_decode_error_keeps_count (MakeRequest "foo" "41.1234" "-81.1234")
    (fun _ => FetchOutcome.response 200 [(APICallsHeader, "1")] "not json")
    (fun _ => Except.error "invalid json")
    "https://api.darksky.net/forecast/foo/41.1234,-81.1234?lang=en&units=us" 200
    [(APICallsHeader, "1")] "not json" 1 "invalid json" (by decide) rfl (by norm_num)
    (by decide) rfl

end DarkSky

namespace DarkSky

/-- Witness for C3 at the repository's own fixture request with time 12345. -/
theorem url_time_set_witness :
    0 < ((MakeRequest "foo" "41.1234" "-81.1234").WithTime 12345).Time ∧
    ((MakeRequest "foo" "41.1234" "-81.1234").WithTime 12345).URL =
      Except.ok "https://api.darksky.net/forecast/foo/41.1234,-81.1234,12345?lang=en&units=us" ∧
    commaCount ("," ++ toString (12345 : Int)) = 1 := by
  have h := url_time_set ((MakeRequest "foo" "41.1234" "-81.1234").WithTime 12345) rfl
    (by decide) (by decide) (by decide) (by decide)
  exact ⟨by decide, h.1.trans (by decide), h.2⟩

/-- Witness for the amended C4 at the fixture request with time 12345. -/
theorem url_time_segment_iff_witness :
    ((MakeRequest "foo" "41.1234" "-81.1234").WithTime 12345).URL =
      Except.ok "https://api.darksky.net/forecast/foo/41.1234,-81.1234,12345?lang=en&units=us" :=
  (url_time_segment_iff ((MakeRequest "foo" "41.1234" "-81.1234").WithTime 12345) rfl
    (by decide) (by decide) (by decide)).trans (by decide)

/-- Witness for C8: language set to English then Spanish, units to US then
SI, rendering once with the final values only. -/
theorem lang_units_override_witness :
    ((((MakeRequest "foo" "41.1234" "-81.1234").WithLang English).WithLang
          Spanish).WithUnits US |>.WithUnits SI).URL =
      Except.ok "https://api.darksky.net/forecast/foo/41.1234,-81.1234?lang=es&units=si" :=
  ((lang_units_override (MakeRequest "foo" "41.1234" "-81.1234") English Spanish US SI rfl
      (by decide) (by decide) (by decide)).2.2).trans (by decide)

end DarkSky
